import Mathlib

/-!
Verification of the resilient execution pipeline of `pkg/resilience`
(`resilience.go` and the resilient HTTP client built on it).

The repository composes policies from the failsafe-go library; the library
itself is not part of the sources, so the behaviour of the individual
policies (circuit breaker, retry, timeout, fallback) is modelled from the
specification (sections 3, 4 and 7), while everything the repository's own
code decides — the configuration surface, the composition order built in
`New`, the option functions, the delegating accessors, and the HTTP
status-code interpretation in `HTTPClient.Do` — is translated directly
from the source.  Durations and instants are natural numbers
(nanoseconds); the per-call clock starts at 0 when `Execute` begins.
-/

namespace Resilience

/-- Circuit breaker states.  Go: `circuitbreaker.ClosedState`,
`OpenState`, `HalfOpenState` (`open` is a Lean keyword, hence `opened`). -/
inductive CircuitState where
  | closed
  | opened
  | halfOpen
deriving DecidableEq, Repr

/-- The parameters `New` actually feeds into the failsafe policies:
failure/success thresholds, open-state delay, retry attempt bound,
backoff bounds, and the overall timeout. -/
structure ExecParams where
  failureThreshold : Nat
  successThreshold : Nat
  openDelay : Nat
  maxAttempts : Nat
  baseDelay : Nat
  maxDelay : Nat
  timeout : Nat
deriving DecidableEq, Repr

/-- Modelled from the spec: the mutable state a `CircuitBreaker` owns —
current state, failure and success counters scoped to the current state,
the timestamp of the last transition into `Open`, and the
at-most-one-in-flight-probe flag used while `HalfOpen`. -/
structure Breaker where
  state : CircuitState
  failures : Nat
  successes : Nat
  openedAt : Nat
  probeInFlight : Bool
deriving DecidableEq, Repr

/-- Modelled from the spec: the initial breaker state is `Closed` with all
counters zero. -/
def initBreaker : Breaker :=
  ⟨CircuitState.closed, 0, 0, 0, false⟩

/-- Modelled from the spec: `canExecute()`.  `Closed`: permit.  `Open`:
permit only when `openDelay` has elapsed since `openedAt`, transitioning to
`HalfOpen` and admitting exactly one probe; otherwise refuse.  `HalfOpen`:
permit only when no probe is in flight. -/
def canExecute (p : ExecParams) (now : Nat) (b : Breaker) : Bool × Breaker :=
  match b.state with
  | CircuitState.closed => (true, b)
  | CircuitState.opened =>
      if b.openedAt + p.openDelay ≤ now then
        (true, ⟨CircuitState.halfOpen, 0, 0, b.openedAt, true⟩)
      else
        (false, b)
  | CircuitState.halfOpen =>
      if b.probeInFlight then (false, b)
      else (true, ⟨CircuitState.halfOpen, b.failures, b.successes, b.openedAt, true⟩)

/-- Modelled from the spec: `recordFailure()`.  In `Closed` the failure
counter is incremented and the breaker trips to `Open` exactly when the
counter reaches `failureThreshold` (setting `openedAt`, resetting
counters).  In `HalfOpen` a single failure transitions straight back to
`Open`.  In `Open` the breaker stays `Open`. -/
def recordFailure (p : ExecParams) (now : Nat) (b : Breaker) : Breaker :=
  match b.state with
  | CircuitState.closed =>
      if p.failureThreshold ≤ b.failures + 1 then
        ⟨CircuitState.opened, 0, 0, now, false⟩
      else
        ⟨CircuitState.closed, b.failures + 1, b.successes, b.openedAt, false⟩
  | CircuitState.halfOpen => ⟨CircuitState.opened, 0, 0, now, false⟩
  | CircuitState.opened => b

/-- Modelled from the spec: `recordSuccess()`.  In `Closed` the failure
counter resets.  In `HalfOpen` the success counter is incremented and the
breaker closes (resetting all counters) when it reaches
`successThreshold`. -/
def recordSuccess (p : ExecParams) (b : Breaker) : Breaker :=
  match b.state with
  | CircuitState.closed =>
      ⟨CircuitState.closed, 0, b.successes, b.openedAt, b.probeInFlight⟩
  | CircuitState.halfOpen =>
      if p.successThreshold ≤ b.successes + 1 then
        ⟨CircuitState.closed, 0, 0, b.openedAt, false⟩
      else
        ⟨CircuitState.halfOpen, b.failures, b.successes + 1, b.openedAt, false⟩
  | CircuitState.opened => b

/-- `CircuitState()` : the executor exposes the breaker's current state
(`e.circuitBreaker.State()`). -/
def circuitState (b : Breaker) : CircuitState :=
  b.state

/-- `IsCircuitClosed()` : true iff the breaker is closed
(`e.circuitBreaker.IsClosed()`). -/
def IsCircuitClosed (b : Breaker) : Bool :=
  match b.state with
  | CircuitState.closed => true
  | _ => false

/-- `ResetCircuit()` calls `circuitBreaker.Close()`: force the breaker to
`Closed`; modelled from the spec, counters reset on the transition. -/
def resetCircuit (b : Breaker) : Breaker :=
  ⟨CircuitState.closed, 0, 0, b.openedAt, false⟩

/-- `HTTPClient.IsHealthy()` delegates to the executor's
`IsCircuitClosed()`. -/
def IsHealthy (b : Breaker) : Bool :=
  IsCircuitClosed b

/-- `n` consecutive failed attempts recorded on breaker `b` (each recorded
at clock 0; the trip behaviour does not depend on the clock). -/
def failuresFrom (p : ExecParams) : Nat → Breaker → Breaker
  | 0, b => b
  | n + 1, b => recordFailure p 0 (failuresFrom p n b)

/-- How one invocation of the wrapped operation can end: a value, an
ordinary error (identified by a code), or a panic raised inside the
operation. -/
inductive OpOutcome (T : Type) where
  | ok (v : T)
  | err (code : Nat)
  | panicked (code : Nat)
deriving DecidableEq, Repr

/-- One invocation of the wrapped operation: how long it runs and how it
ends. -/
structure AttemptBehavior (T : Type) where
  dur : Nat
  out : OpOutcome T
deriving DecidableEq, Repr

/-- A wrapped operation, as the pipeline sees it: attempt number (1-based)
to that attempt's behaviour. -/
def Operation (T : Type) : Type :=
  Nat → AttemptBehavior T

/-- The error kinds a caller of `Execute` can observe (spec section 7),
plus `rawPanic`, which stands for a panic escaping the pipeline uncaught —
the pipeline is required never to produce it. -/
inductive ExecError where
  | circuitOpen
  | timeoutExceeded
  | operationErr (code : Nat)
  | rawPanic (code : Nat)
deriving DecidableEq, Repr

/-- The default retryability predicate: retry everything (the spec's
default is "retry everything except explicit non-retryable markers", and
`New` installs no marker). -/
def defaultRetryable : ExecError → Bool :=
  fun _ => true

/-- Modelled from the spec: `shouldRetry(attemptNumber, error)` is false
when `attemptNumber ≥ maxAttempts` or the error is not retryable. -/
def shouldRetry (p : ExecParams) (r : ExecError → Bool) (attempt : Nat)
    (e : ExecError) : Bool :=
  decide (attempt < p.maxAttempts) && r e

/-- Modelled from the spec: `delayBeforeAttempt(attemptNumber)` — the
`WithBackoff(baseDelay, maxDelay)` policy: exponential backoff from
`baseDelay`, capped at `maxDelay` (the spec fixes no formula beyond
"capped, monotonically non-decreasing").  The first retry — attempt 2 —
waits `baseDelay`, and each later wait doubles, up to the cap. -/
def delayBeforeAttempt (p : ExecParams) (attempt : Nat) : Nat :=
  min (p.baseDelay * 2 ^ (attempt - 2)) p.maxDelay

/-- The attempt boundary: invoke the wrapped operation once and record the
outcome on the breaker.  A success records a success; an error records a
failure; a panic is caught here, converted into an operation error, and
still records a failure, so the breaker's bookkeeping stays consistent. -/
def runAttempt {T : Type} (p : ExecParams) (now : Nat) (op : Operation T)
    (attempt : Nat) (b : Breaker) : Except ExecError T × Breaker :=
  match (op attempt).out with
  | OpOutcome.ok v => (Except.ok v, recordSuccess p b)
  | OpOutcome.err c =>
      (Except.error (ExecError.operationErr c),
       recordFailure p (now + (op attempt).dur) b)
  | OpOutcome.panicked c =>
      (Except.error (ExecError.operationErr c),
       recordFailure p (now + (op attempt).dur) b)

/-- The per-call mutable state threaded through the retry loop: the shared
breaker, the time elapsed since `Execute` started (attempt durations and
backoff sleeps both count), and how often the wrapped operation has been
invoked. -/
structure LoopState where
  breaker : Breaker
  elapsed : Nat
  invocations : Nat
deriving DecidableEq, Repr

/-- Modelled from the spec: the failure arm of one loop iteration
(section 4.5 step 2c).  If `shouldRetry` says no — or the structural
iteration budget `next` is exhausted, which cannot happen while attempts
remain — the error is final.  Otherwise the loop sleeps
`delayBeforeAttempt (attempt+1)`; the sleep is raced against the same
overall deadline (a sleep that crosses it ends the call with a timeout
error), and on waking the continuation `next` runs the next iteration on
the slept state. -/
def afterFailure {T : Type} (p : ExecParams) (r : ExecError → Bool)
    (attempt : Nat) (e : ExecError) (ls : LoopState)
    (next : Option (LoopState → Except ExecError T × LoopState)) :
    Except ExecError T × LoopState :=
  if shouldRetry p r attempt e then
    match next with
    | none => (Except.error e, ls)
    | some k =>
        let d := delayBeforeAttempt p (attempt + 1)
        if p.timeout ≤ ls.elapsed + d then
          (Except.error ExecError.timeoutExceeded,
           ⟨ls.breaker, ls.elapsed + d, ls.invocations⟩)
        else
          k ⟨ls.breaker, ls.elapsed + d, ls.invocations⟩
  else
    (Except.error e, ls)

/-- Modelled from the spec: one iteration of the retry loop (section 4.5
step 2) raced against the single overall deadline (section 4.3).  The
deadline `p.timeout` is fixed once for the whole call and compared
against the accumulated `elapsed`, which grows across attempts and
backoff sleeps alike.  The iteration asks the breaker for permission (a
refusal is an immediate `circuitOpen` failure without invoking the
operation), otherwise runs one attempt through `runAttempt`; an attempt
that resolves past the deadline ends the call with a timeout error (its
outcome is still recorded on the breaker). -/
def retryBody {T : Type} (p : ExecParams) (r : ExecError → Bool)
    (op : Operation T) (attempt : Nat) (ls : LoopState)
    (next : Option (LoopState → Except ExecError T × LoopState)) :
    Except ExecError T × LoopState :=
  if p.timeout ≤ ls.elapsed then
    (Except.error ExecError.timeoutExceeded, ls)
  else
    match canExecute p ls.elapsed ls.breaker with
    | (false, b1) =>
        afterFailure p r attempt ExecError.circuitOpen
          ⟨b1, ls.elapsed, ls.invocations⟩ next
    | (true, b1) =>
        let res := runAttempt p ls.elapsed op attempt b1
        let ls1 : LoopState :=
          ⟨res.2, ls.elapsed + (op attempt).dur, ls.invocations + 1⟩
        if p.timeout ≤ ls1.elapsed then
          (Except.error ExecError.timeoutExceeded, ls1)
        else
          match res.1 with
          | Except.ok v => (Except.ok v, ls1)
          | Except.error e => afterFailure p r attempt e ls1 next

/-- Modelled from the spec: the retry loop, `rem` being the structural
bound on the remaining iterations (`p.maxAttempts` at the start; the
`shouldRetry` guard keeps it from ever running out while a retry is still
allowed). -/
def retryLoop {T : Type} (p : ExecParams) (r : ExecError → Bool)
    (op : Operation T) :
    Nat → Nat → LoopState → Except ExecError T × LoopState
  | 0, attempt, ls => retryBody p r op attempt ls none
  | rem + 1, attempt, ls =>
      retryBody p r op attempt ls
        (some (fun ls2 => retryLoop p r op rem (attempt + 1) ls2))

/-- The timeout-guarded retry loop over the breaker — everything inside
the (optional) fallback stage.  The per-call clock and invocation count
start at zero; attempts are numbered from 1. -/
def ExecuteCore {T : Type} (p : ExecParams) (r : ExecError → Bool)
    (op : Operation T) (b : Breaker) : Except ExecError T × LoopState :=
  retryLoop p r op p.maxAttempts 1 ⟨b, 0, 0⟩

/-- A fallback resolver: `resolve(finalError) → (value, error)`. -/
def Fallback (T : Type) : Type :=
  ExecError → Except ExecError T

/-- `WithFallbackValue`: a fallback that always resolves to the static
value (`fallback.WithResult(value)`). -/
def fallbackValue {T : Type} (v : T) : Fallback T :=
  fun _ => Except.ok v

/-- `Execute`: run the core pipeline; a final error goes to the fallback
resolver when one is configured, and is returned unchanged when none
is. -/
def Execute {T : Type} (p : ExecParams) (fb : Option (Fallback T))
    (r : ExecError → Bool) (op : Operation T) (b : Breaker) :
    Except ExecError T :=
  match (ExecuteCore p r op b).1 with
  | Except.ok v => Except.ok v
  | Except.error e =>
      match fb with
      | none => Except.error e
      | some f => f e

/-- The four policy kinds `New` can compose. -/
inductive PolicyKind where
  | fallbackP
  | timeoutP
  | retryP
  | breakerP
deriving DecidableEq, Repr

/-- The policy list built in `New` (resilience.go:138-144): always
`[timeout, retry, circuitBreaker]`, with the fallback prepended
(outermost) exactly when one was configured.  failsafe applies the list
outermost first, so the composition is
fallback → timeout → retry → breaker → user function. -/
def buildPolicies (hasFallback : Bool) : List PolicyKind :=
  let policies := [PolicyKind.timeoutP, PolicyKind.retryP, PolicyKind.breakerP]
  if hasFallback then PolicyKind.fallbackP :: policies else policies

/-- `Config` (resilience.go:24-38).  Durations are nanosecond counts; the
failure-rate threshold (a float64 in Go) is kept as a rational — no
constructor ever reads it, so only its presence matters. -/
structure Config where
  CBFailureThreshold : Nat
  CBSuccessThreshold : Nat
  CBDelay : Nat
  CBFailureRateThreshold : Rat
  RetryMaxAttempts : Nat
  RetryDelay : Nat
  RetryMaxDelay : Nat
  Timeout : Nat
deriving DecidableEq, Repr

/-- Replace only the `CBFailureRateThreshold` field. -/
def setCBFailureRateThreshold (c : Config) (x : Rat) : Config :=
  ⟨c.CBFailureThreshold, c.CBSuccessThreshold, c.CBDelay, x,
   c.RetryMaxAttempts, c.RetryDelay, c.RetryMaxDelay, c.Timeout⟩

/-- The parameters `New` reads out of `Config` when building its policies
(resilience.go:101-136): the three circuit-breaker fields, the three
retry fields and the timeout — and nothing else. -/
def New (cfg : Config) : ExecParams :=
  ⟨cfg.CBFailureThreshold, cfg.CBSuccessThreshold, cfg.CBDelay,
   cfg.RetryMaxAttempts, cfg.RetryDelay, cfg.RetryMaxDelay, cfg.Timeout⟩

/-- `NewSimple` (resilience.go:191-242) reads exactly the same seven
fields to build the same three policies (it never takes a fallback). -/
def NewSimple (cfg : Config) : ExecParams :=
  ⟨cfg.CBFailureThreshold, cfg.CBSuccessThreshold, cfg.CBDelay,
   cfg.RetryMaxAttempts, cfg.RetryDelay, cfg.RetryMaxDelay, cfg.Timeout⟩

/-- An HTTP response as `HTTPClient.Do` inspects it: a status code and a
body. -/
structure HTTPResponse where
  statusCode : Nat
  body : String
deriving DecidableEq, Repr

/-- What the closure inside `HTTPClient.Do` returns: the response with a
nil error, or a nil response with a non-nil error. -/
inductive DoOutcome where
  | respOk (resp : HTTPResponse)
  | respErr (msg : String)
deriving DecidableEq, Repr

/-- The error message `Do` builds for a 5xx response:
`fmt.Errorf("server error: %d - %s", resp.StatusCode, string(body))`. -/
def serverErrorMsg (statusCode : Nat) (body : String) : String :=
  "server error: " ++ toString statusCode ++ " - " ++ body

/-- The status-interpreting closure `HTTPClient.Do` wraps in the executor
(part_006 lines 66-84): a transport error passes through; a response with
status ≥ 500 has its body read and closed and becomes a nil response with
a server-error error; anything else is returned with a nil error.  The
boolean records whether the response body was closed. -/
def doAttempt (r : Except String HTTPResponse) : DoOutcome × Bool :=
  match r with
  | Except.error msg => (DoOutcome.respErr msg, false)
  | Except.ok resp =>
      if 500 ≤ resp.statusCode then
        (DoOutcome.respErr (serverErrorMsg resp.statusCode resp.body), true)
      else
        (DoOutcome.respOk resp, false)

/-! Concrete instances used by the evaluation witnesses. -/

/-- DefaultConfig-like sample parameters: thresholds 3/2, open delay 30,
3 attempts, backoff 100 to 2000, timeout 10000. -/
def sampleParams : ExecParams :=
  ⟨3, 2, 30, 3, 100, 2000, 10000⟩

/-- Sample parameters with a single attempt. -/
def sampleParamsOne : ExecParams :=
  ⟨3, 2, 30, 1, 100, 2000, 10000⟩

/-- An operation that always fails (error code 7, 50ns per attempt). -/
def sampleFailOp : Operation Nat :=
  fun _ => ⟨50, OpOutcome.err 7⟩

/-- An operation that always panics (code 9, 50ns per attempt). -/
def samplePanicOp : Operation Nat :=
  fun _ => ⟨50, OpOutcome.panicked 9⟩

/-- A sample response body. -/
def sampleBody : String :=
  "oops"

/-- A sample 5xx response. -/
def sampleResp503 : HTTPResponse :=
  ⟨503, sampleBody⟩

/-- A sample 2xx response. -/
def sampleResp200 : HTTPResponse :=
  ⟨200, sampleBody⟩

/-! Breaker lemmas. -/

/-- Below the failure threshold the breaker stays `Closed`, counting the
consecutive failures. -/
theorem failuresFrom_closed (p : ExecParams) :
    ∀ k, k < p.failureThreshold →
      failuresFrom p k initBreaker = ⟨CircuitState.closed, k, 0, 0, false⟩ := by
  intro k
  induction k with
  | zero => intro _; rfl
  | succ n ih =>
      intro h
      have hn : n < p.failureThreshold := by omega
      simp only [failuresFrom, ih hn, recordFailure]
      rw [if_neg (by omega)]

/-- Once `Open`, a further recorded failure leaves the breaker `Open`. -/
theorem recordFailure_opened (p : ExecParams) (now : Nat) (b : Breaker)
    (h : b.state = CircuitState.opened) :
    recordFailure p now b = b := by
  simp [recordFailure, h]

/-- The breaker trips exactly when the consecutive-failure count reaches
the threshold. -/
theorem failuresFrom_trip (p : ExecParams) (h1 : 1 ≤ p.failureThreshold) :
    (failuresFrom p p.failureThreshold initBreaker).state =
      CircuitState.opened := by
  obtain ⟨t, ht⟩ : ∃ t, p.failureThreshold = t + 1 :=
    ⟨p.failureThreshold - 1, by omega⟩
  rw [ht]
  simp only [failuresFrom]
  rw [failuresFrom_closed p t (by omega)]
  have hle : p.failureThreshold ≤ t + 1 := by omega
  simp [recordFailure, hle]

/-- C3: for every `N ≥ failureThreshold`, after `N` consecutive failed
attempts recorded through a breaker in the `Closed` state,
`CircuitState()` returns `Open`; the breaker starts in `Closed` and trips
to `Open` exactly when the consecutive-failure count reaches
`failureThreshold` (below the threshold it is still `Closed`). -/
theorem breaker_trips_at_threshold (p : ExecParams) (N : Nat)
    (h1 : 1 ≤ p.failureThreshold) (hN : p.failureThreshold ≤ N) :
    initBreaker.state = CircuitState.closed ∧
    circuitState (failuresFrom p N initBreaker) = CircuitState.opened ∧
    (∀ k, k < p.failureThreshold →
      circuitState (failuresFrom p k initBreaker) = CircuitState.closed) := by
  refine ⟨rfl, ?_, ?_⟩
  · obtain ⟨m, hm⟩ : ∃ m, N = p.failureThreshold + m :=
      ⟨N - p.failureThreshold, by omega⟩
    subst hm
    clear hN
    induction m with
    | zero => exact failuresFrom_trip p h1
    | succ n ih =>
        have hstep : p.failureThreshold + (n + 1) =
            (p.failureThreshold + n) + 1 := by omega
        rw [hstep]
        simp only [failuresFrom]
        rw [recordFailure_opened p 0 _ ih]
        exact ih
  · intro k hk
    rw [failuresFrom_closed p k hk]
    rfl

/-- Evaluation witness for C3 at concrete inputs: threshold 3, five
failures trip the breaker, two leave it closed. -/
theorem breaker_trips_at_threshold_witness :
    initBreaker.state = CircuitState.closed ∧
    circuitState (failuresFrom sampleParams 5 initBreaker) =
      CircuitState.opened ∧
    circuitState (failuresFrom sampleParams 2 initBreaker) =
      CircuitState.closed := by
  have h := breaker_trips_at_threshold sampleParams 5 (by decide) (by decide)
  exact ⟨h.1, h.2.1, h.2.2 2 (by decide)⟩

/-! Retry-loop lemmas: invocation counting. -/

/-- `shouldRetry` only answers true below the attempt bound. -/
theorem shouldRetry_true_lt (p : ExecParams) (r : ExecError → Bool)
    (a : Nat) (e : ExecError) (h : shouldRetry p r a e = true) :
    a < p.maxAttempts := by
  simp only [shouldRetry, Bool.and_eq_true, decide_eq_true_eq] at h
  exact h.1

/-- The failure arm never invokes the operation: its invocation count is
bounded whenever the continuation's is. -/
theorem afterFailure_inv_le {T : Type} (p : ExecParams) (r : ExecError → Bool)
    (a : Nat) (e : ExecError) (ls : LoopState)
    (next : Option (LoopState → Except ExecError T × LoopState)) (B : Nat)
    (h0 : ls.invocations ≤ B)
    (hnext : a < p.maxAttempts →
      ∀ k, next = some k → ∀ ls2 : LoopState,
        ls2.invocations = ls.invocations → (k ls2).2.invocations ≤ B) :
    (afterFailure p r a e ls next).2.invocations ≤ B := by
  unfold afterFailure
  split
  · rename_i h
    cases next with
    | none => simpa using h0
    | some k =>
        simp only
        split
        · simpa using h0
        · exact hnext (shouldRetry_true_lt p r a e h) k rfl
            ⟨ls.breaker, ls.elapsed + delayBeforeAttempt p (a + 1),
             ls.invocations⟩ rfl
  · simpa using h0

/-- One loop iteration invokes the operation at most once. -/
theorem retryBody_inv_le {T : Type} (p : ExecParams) (r : ExecError → Bool)
    (op : Operation T) (a : Nat) (ls : LoopState)
    (next : Option (LoopState → Except ExecError T × LoopState)) (B : Nat)
    (h0 : ls.invocations + 1 ≤ B)
    (hnext : a < p.maxAttempts →
      ∀ k, next = some k → ∀ ls2 : LoopState,
        ls2.invocations ≤ ls.invocations + 1 → (k ls2).2.invocations ≤ B) :
    (retryBody p r op a ls next).2.invocations ≤ B := by
  unfold retryBody
  split
  · simp only
    omega
  · split
    · rename_i b1 heq
      apply afterFailure_inv_le
      · simpa using Nat.le_trans (Nat.le_succ _) h0
      · intro hlt k hk ls2 h2
        refine hnext hlt k hk ls2 ?_
        simp only at h2
        omega
    · rename_i b1 heq
      simp only
      split
      · simp only
        omega
      · split
        · simp only
          omega
        · apply afterFailure_inv_le
          · simpa using h0
          · intro hlt k hk ls2 h2
            refine hnext hlt k hk ls2 ?_
            simp only at h2
            omega

/-- P6 ingredient: starting at attempt `a`, the whole loop invokes the
operation at most `maxAttempts - a + 1` more times. -/
theorem retryLoop_inv_le {T : Type} (p : ExecParams) (r : ExecError → Bool)
    (op : Operation T) :
    ∀ (rem a : Nat) (ls : LoopState),
      (retryLoop p r op rem a ls).2.invocations ≤
        ls.invocations + (p.maxAttempts - a) + 1 := by
  intro rem
  induction rem with
  | zero =>
      intro a ls
      apply retryBody_inv_le
      · omega
      · intro _ k hk
        cases hk
  | succ rem ih =>
      intro a ls
      apply retryBody_inv_le
      · omega
      · intro hlt k hk ls2 h2
        injection hk with hk'
        subst hk'
        have h3 := ih (a + 1) ls2
        show (retryLoop p r op rem (a + 1) ls2).2.invocations ≤
          ls.invocations + (p.maxAttempts - a) + 1
        omega

/-- C2: with `maxAttempts = n` (`n ≥ 1`), a single `Execute` call invokes
the wrapped operation at most `n` times, and `shouldRetry` denies a retry
once the attempt number reaches `maxAttempts` or the error is not
retryable. -/
theorem execute_retry_bound {T : Type} (p : ExecParams)
    (r : ExecError → Bool) (op : Operation T) (b : Breaker)
    (h : 1 ≤ p.maxAttempts) :
    (ExecuteCore p r op b).2.invocations ≤ p.maxAttempts ∧
    (∀ a e, p.maxAttempts ≤ a ∨ r e = false →
      shouldRetry p r a e = false) := by
  constructor
  · have hb := retryLoop_inv_le p r op p.maxAttempts 1 ⟨b, 0, 0⟩
    have h2 : (⟨b, 0, 0⟩ : LoopState).invocations = 0 := rfl
    rw [h2] at hb
    unfold ExecuteCore
    omega
  · intro a e he
    rcases he with he | he
    · unfold shouldRetry
      rw [decide_eq_false (by omega)]
      simp
    · simp [shouldRetry, he]

/-- Evaluation witness for C2: three attempts at most with the sample
parameters, and no fourth retry. -/
theorem execute_retry_bound_witness :
    (ExecuteCore sampleParams defaultRetryable sampleFailOp
      initBreaker).2.invocations ≤ sampleParams.maxAttempts ∧
    shouldRetry sampleParams defaultRetryable 3 ExecError.circuitOpen =
      false :=
  ⟨(execute_retry_bound sampleParams defaultRetryable sampleFailOp
      initBreaker (by decide)).1,
   (execute_retry_bound sampleParams defaultRetryable sampleFailOp
      initBreaker (by decide)).2 3 ExecError.circuitOpen
     (Or.inl (by decide))⟩

/-! Retry-loop lemmas: result shape.  `GoodRes` bundles the two facts the
loop maintains about its result: it ends with a timeout error exactly
when the accumulated elapsed time (attempt durations and backoff sleeps
combined, measured from the single start of the call) has reached the one
configured deadline, and no raw panic ever comes out of it. -/

def GoodRes {T : Type} (p : ExecParams)
    (res : Except ExecError T × LoopState) : Prop :=
  (res.1 = Except.error ExecError.timeoutExceeded ↔
    p.timeout ≤ res.2.elapsed) ∧
  ∀ c, res.1 ≠ Except.error (ExecError.rawPanic c)

/-- A non-timeout, non-panic error returned before the deadline is a good
result. -/
theorem goodRes_error {T : Type} (p : ExecParams) (e : ExecError)
    (ls : LoopState) (he_t : e ≠ ExecError.timeoutExceeded)
    (he_p : ∀ c, e ≠ ExecError.rawPanic c)
    (hls : ¬ p.timeout ≤ ls.elapsed) :
    GoodRes p ((Except.error e : Except ExecError T), ls) := by
  refine ⟨⟨fun h => absurd (Except.error.inj h) he_t,
           fun h => absurd h hls⟩, ?_⟩
  intro c h
  exact absurd (Except.error.inj h) (he_p c)

/-- A timeout error returned at or past the deadline is a good result. -/
theorem goodRes_timeout {T : Type} (p : ExecParams) (ls : LoopState)
    (hls : p.timeout ≤ ls.elapsed) :
    GoodRes p ((Except.error ExecError.timeoutExceeded :
      Except ExecError T), ls) := by
  refine ⟨⟨(fun _ => hls), (fun _ => rfl)⟩, ?_⟩
  intro c h
  cases Except.error.inj h

/-- A success returned before the deadline is a good result. -/
theorem goodRes_ok {T : Type} (p : ExecParams) (v : T) (ls : LoopState)
    (hls : ¬ p.timeout ≤ ls.elapsed) :
    GoodRes p (Except.ok v, ls) := by
  refine ⟨⟨(fun h => by cases h), (fun h => absurd h hls)⟩, ?_⟩
  intro c h
  cases h

/-- The attempt boundary never reports a timeout or a raw panic of its
own: its error is always the converted operation error. -/
theorem runAttempt_error_kinds {T : Type} (p : ExecParams) (now : Nat)
    (op : Operation T) (a : Nat) (b : Breaker) (e : ExecError)
    (h : (runAttempt p now op a b).1 = Except.error e) :
    e ≠ ExecError.timeoutExceeded ∧ ∀ c, e ≠ ExecError.rawPanic c := by
  unfold runAttempt at h
  cases hout : (op a).out with
  | ok v => rw [hout] at h; cases h
  | err c =>
      rw [hout] at h
      have := Except.error.inj h
      subst this
      exact ⟨(fun h2 => by cases h2), (fun c2 h2 => by cases h2)⟩
  | panicked c =>
      rw [hout] at h
      have := Except.error.inj h
      subst this
      exact ⟨(fun h2 => by cases h2), (fun c2 h2 => by cases h2)⟩

/-- A success out of the attempt boundary comes from a successful
operation outcome. -/
theorem runAttempt_ok_out {T : Type} (p : ExecParams) (now : Nat)
    (op : Operation T) (a : Nat) (b : Breaker) (v : T)
    (h : (runAttempt p now op a b).1 = Except.ok v) :
    (op a).out = OpOutcome.ok v := by
  unfold runAttempt at h
  cases hout : (op a).out with
  | ok w => rw [hout] at h; rw [Except.ok.inj h]
  | err c => rw [hout] at h; cases h
  | panicked c => rw [hout] at h; cases h

/-- The failure arm preserves `GoodRes` for well-shaped errors. -/
theorem afterFailure_good {T : Type} (p : ExecParams)
    (r : ExecError → Bool) (a : Nat) (e : ExecError) (ls : LoopState)
    (next : Option (LoopState → Except ExecError T × LoopState))
    (he_t : e ≠ ExecError.timeoutExceeded)
    (he_p : ∀ c, e ≠ ExecError.rawPanic c)
    (hls : ¬ p.timeout ≤ ls.elapsed)
    (hnext : ∀ k, next = some k → ∀ ls2 : LoopState, GoodRes p (k ls2)) :
    GoodRes p (afterFailure p r a e ls next) := by
  unfold afterFailure
  split
  · cases next with
    | none => exact goodRes_error p e ls he_t he_p hls
    | some k =>
        simp only
        split
        · rename_i hto
          exact goodRes_timeout p _ hto
        · exact hnext k rfl _
  · exact goodRes_error p e ls he_t he_p hls

/-- One loop iteration preserves `GoodRes`. -/
theorem retryBody_good {T : Type} (p : ExecParams) (r : ExecError → Bool)
    (op : Operation T) (a : Nat) (ls : LoopState)
    (next : Option (LoopState → Except ExecError T × LoopState))
    (hnext : ∀ k, next = some k → ∀ ls2 : LoopState, GoodRes p (k ls2)) :
    GoodRes p (retryBody p r op a ls next) := by
  unfold retryBody
  split
  · rename_i hto
    exact goodRes_timeout p ls hto
  · rename_i hnto
    split
    · exact afterFailure_good p r a ExecError.circuitOpen _ next
        (fun h => by cases h) (fun c h => by cases h) hnto hnext
    · rename_i b1 heq
      simp only
      split
      · rename_i hto1
        exact goodRes_timeout p _ hto1
      · rename_i hnto1
        split
        · rename_i v hok
          exact goodRes_ok p v _ hnto1
        · rename_i e herr
          have hk := runAttempt_error_kinds p ls.elapsed op a b1 e herr
          exact afterFailure_good p r a e _ next hk.1 hk.2 hnto1 hnext

/-- The whole loop yields a good result from any starting state. -/
theorem retryLoop_good {T : Type} (p : ExecParams) (r : ExecError → Bool)
    (op : Operation T) :
    ∀ (rem a : Nat) (ls : LoopState),
      GoodRes p (retryLoop p r op rem a ls) := by
  intro rem
  induction rem with
  | zero =>
      intro a ls
      apply retryBody_good
      intro k hk
      cases hk
  | succ rem ih =>
      intro a ls
      apply retryBody_good
      intro k hk ls2
      injection hk with hk'
      subst hk'
      exact ih (a + 1) ls2

/-- The failure arm never produces a success of its own. -/
theorem afterFailure_no_ok {T : Type} (p : ExecParams)
    (r : ExecError → Bool) (a : Nat) (e : ExecError) (ls : LoopState)
    (next : Option (LoopState → Except ExecError T × LoopState))
    (hnext : ∀ k, next = some k → ∀ (ls2 : LoopState) (v : T),
      (k ls2).1 ≠ Except.ok v) :
    ∀ v : T, (afterFailure p r a e ls next).1 ≠ Except.ok v := by
  intro v
  unfold afterFailure
  split
  · cases next with
    | none => intro h; cases h
    | some k =>
        simp only
        split
        · intro h; cases h
        · exact hnext k rfl _ v
  · intro h; cases h

/-- If the wrapped operation never succeeds, no iteration of the loop
returns a success. -/
theorem retryBody_no_ok {T : Type} (p : ExecParams) (r : ExecError → Bool)
    (op : Operation T) (a : Nat) (ls : LoopState)
    (next : Option (LoopState → Except ExecError T × LoopState))
    (hop : ∀ (n : Nat) (v : T), (op n).out ≠ OpOutcome.ok v)
    (hnext : ∀ k, next = some k → ∀ (ls2 : LoopState) (v : T),
      (k ls2).1 ≠ Except.ok v) :
    ∀ v : T, (retryBody p r op a ls next).1 ≠ Except.ok v := by
  intro v
  unfold retryBody
  split
  · intro h; cases h
  · split
    · exact afterFailure_no_ok p r a ExecError.circuitOpen _ next hnext v
    · rename_i b1 heq
      simp only
      split
      · intro h; cases h
      · split
        · rename_i w hok
          exact absurd (runAttempt_ok_out p ls.elapsed op a b1 w hok)
            (hop a w)
        · rename_i e herr
          exact afterFailure_no_ok p r a e _ next hnext v

/-- If the wrapped operation never succeeds, the loop never returns a
success. -/
theorem retryLoop_no_ok {T : Type} (p : ExecParams) (r : ExecError → Bool)
    (op : Operation T)
    (hop : ∀ (n : Nat) (v : T), (op n).out ≠ OpOutcome.ok v) :
    ∀ (rem a : Nat) (ls : LoopState) (v : T),
      (retryLoop p r op rem a ls).1 ≠ Except.ok v := by
  intro rem
  induction rem with
  | zero =>
      intro a ls
      apply retryBody_no_ok p r op a ls none hop
      intro k hk
      cases hk
  | succ rem ih =>
      intro a ls
      apply retryBody_no_ok p r op a ls _ hop
      intro k hk ls2 v
      injection hk with hk'
      subst hk'
      exact ih (a + 1) ls2 v

/-- C4: the timeout deadline is started once and spans the entire call:
the loop compares the one configured `timeout` against the elapsed time
accumulated since the call began — attempt durations and inter-attempt
backoff sleeps combined, never reset between attempts — and the call
fails with a timeout error exactly when that single overall deadline
expires before the call ends. -/
theorem timeout_spans_whole_call {T : Type} (p : ExecParams)
    (r : ExecError → Bool) (op : Operation T) (b : Breaker) :
    (ExecuteCore p r op b).1 = Except.error ExecError.timeoutExceeded ↔
      p.timeout ≤ (ExecuteCore p r op b).2.elapsed :=
  (retryLoop_good p r op p.maxAttempts 1 ⟨b, 0, 0⟩).1

/-- C1: `New` composes the fixed pipeline fallback (outermost, only when
configured) → timeout → retry → circuit breaker around the user function;
`Execute` hands a final core error to the configured fallback, and when
no fallback is configured the stage is absent — the core's result,
errors included, is returned unchanged. -/
theorem pipeline_composition_order :
    buildPolicies true =
      [PolicyKind.fallbackP, PolicyKind.timeoutP, PolicyKind.retryP,
       PolicyKind.breakerP] ∧
    buildPolicies false =
      [PolicyKind.timeoutP, PolicyKind.retryP, PolicyKind.breakerP] ∧
    (∀ (T : Type) (p : ExecParams) (r : ExecError → Bool)
       (op : Operation T) (b : Breaker),
       Execute p none r op b = (ExecuteCore p r op b).1) ∧
    (∀ (T : Type) (p : ExecParams) (f : Fallback T) (r : ExecError → Bool)
       (op : Operation T) (b : Breaker) (e : ExecError),
       (ExecuteCore p r op b).1 = Except.error e →
       Execute p (some f) r op b = f e) := by
  refine ⟨rfl, rfl, ?_, ?_⟩
  · intro T p r op b
    unfold Execute
    cases h : (ExecuteCore p r op b).1 with
    | ok v => rfl
    | error e => rfl
  · intro T p f r op b e he
    unfold Execute
    rw [he]

/-- Evaluation witness for C1: a failing single-attempt run hands its
final operation error to the configured fallback resolver. -/
theorem pipeline_composition_order_witness :
    Execute sampleParamsOne (some (fallbackValue 41)) defaultRetryable
      sampleFailOp initBreaker =
      fallbackValue 41 (ExecError.operationErr 7) :=
  pipeline_composition_order.2.2.2 Nat sampleParamsOne (fallbackValue 41)
    defaultRetryable sampleFailOp initBreaker (ExecError.operationErr 7)
    rfl

/-- C5: with a fallback whose resolver succeeds, `Execute` returns a nil
error for every wrapped operation; in particular a static fallback value
with `maxAttempts = 1` turns an always-failing operation into that value
with a nil error.  With no fallback, a final failure returns the
underlying error unmodified. -/
theorem fallback_success_semantics {T : Type} (p : ExecParams)
    (r : ExecError → Bool) (op : Operation T) (b : Breaker) :
    (∀ e, (ExecuteCore p r op b).1 = Except.error e →
      Execute p none r op b = Except.error e) ∧
    (∀ f : Fallback T, (∀ e, ∃ v, f e = Except.ok v) →
      ∃ v, Execute p (some f) r op b = Except.ok v) ∧
    (∀ v : T, p.maxAttempts = 1 →
      (∀ (a : Nat) (w : T), (op a).out ≠ OpOutcome.ok w) →
      Execute p (some (fallbackValue v)) r op b = Except.ok v) := by
  refine ⟨?_, ?_, ?_⟩
  · intro e he
    unfold Execute
    rw [he]
  · intro f hf
    unfold Execute
    cases h : (ExecuteCore p r op b).1 with
    | ok v => exact ⟨v, rfl⟩
    | error e => exact hf e
  · intro v _ hop
    unfold Execute
    cases h : (ExecuteCore p r op b).1 with
    | ok w => exact absurd h (retryLoop_no_ok p r op hop p.maxAttempts 1 _ w)
    | error e => rfl

/-- Evaluation witness for C5: a static fallback value with one attempt
and an always-failing operation yields the cached value with a nil
error. -/
theorem fallback_success_semantics_witness :
    Execute sampleParamsOne (some (fallbackValue 42)) defaultRetryable
      sampleFailOp initBreaker = Except.ok 42 :=
  (fallback_success_semantics sampleParamsOne defaultRetryable sampleFailOp
      initBreaker).2.2 42 rfl
    (fun a w h => by simp [sampleFailOp] at h)

/-- C6: a caller of `Execute` receives either a value or exactly one of
the specified error kinds and never a raw panic escaping the pipeline
(given the fallback resolver, user code outside the pipeline, does not
raise one itself); a panic inside the wrapped operation is caught at the
attempt boundary, converted into an operation error, and still recorded
as a failure on the circuit breaker, exactly like an ordinary failed
attempt. -/
theorem no_raw_panic_escapes {T : Type} (p : ExecParams)
    (fb : Option (Fallback T)) (r : ExecError → Bool) (op : Operation T)
    (b : Breaker)
    (hfb : ∀ f, fb = some f → ∀ e c,
      f e ≠ Except.error (ExecError.rawPanic c)) :
    (∀ c, Execute p fb r op b ≠ Except.error (ExecError.rawPanic c)) ∧
    ((∃ v, Execute p fb r op b = Except.ok v) ∨
     Execute p fb r op b = Except.error ExecError.circuitOpen ∨
     Execute p fb r op b = Except.error ExecError.timeoutExceeded ∨
     (∃ c, Execute p fb r op b = Except.error (ExecError.operationErr c))) ∧
    (∀ (now a : Nat) (b2 : Breaker) (c : Nat),
      (op a).out = OpOutcome.panicked c →
      runAttempt p now op a b2 =
        (Except.error (ExecError.operationErr c),
         recordFailure p (now + (op a).dur) b2)) := by
  have hcore := retryLoop_good p r op p.maxAttempts 1 ⟨b, 0, 0⟩
  have hmain : ∀ c, Execute p fb r op b ≠
      Except.error (ExecError.rawPanic c) := by
    intro c
    unfold Execute
    cases h : (ExecuteCore p r op b).1 with
    | ok v => intro h2; cases h2
    | error e =>
        cases fb with
        | none =>
            intro h2
            exact hcore.2 c (h.trans h2)
        | some f => exact hfb f rfl e c
  refine ⟨hmain, ?_, ?_⟩
  · cases h : Execute p fb r op b with
    | ok v => exact Or.inl ⟨v, rfl⟩
    | error e =>
        cases e with
        | circuitOpen => exact Or.inr (Or.inl rfl)
        | timeoutExceeded => exact Or.inr (Or.inr (Or.inl rfl))
        | operationErr c => exact Or.inr (Or.inr (Or.inr ⟨c, rfl⟩))
        | rawPanic c => exact absurd h (hmain c)
  · intro now a b2 c h
    unfold runAttempt
    rw [h]

/-- Evaluation witness for C6: with an always-panicking operation and no
fallback, the call returns no raw panic, and the attempt boundary
converts the panic while recording the failure. -/
theorem no_raw_panic_escapes_witness :
    (Execute sampleParamsOne none defaultRetryable samplePanicOp
        initBreaker ≠ Except.error (ExecError.rawPanic 9)) ∧
    runAttempt sampleParamsOne 0 samplePanicOp 1 initBreaker =
      (Except.error (ExecError.operationErr 9),
       recordFailure sampleParamsOne (0 + (samplePanicOp 1).dur)
         initBreaker) := by
  have h := no_raw_panic_escapes sampleParamsOne none defaultRetryable
    samplePanicOp initBreaker (fun f hf => by cases hf)
  exact ⟨h.1 9, h.2.2 0 1 initBreaker 9 rfl⟩

/-- C7: the backoff delay is non-decreasing in the attempt number and
never exceeds `maxDelay`, for the policy built from `baseDelay` and
`maxDelay`. -/
theorem backoff_monotone_and_capped (p : ExecParams) (i j : Nat)
    (hij : i ≤ j) :
    delayBeforeAttempt p i ≤ delayBeforeAttempt p j ∧
    (∀ k, delayBeforeAttempt p k ≤ p.maxDelay) := by
  constructor
  · exact min_le_min
      (Nat.mul_le_mul_left _ (Nat.pow_le_pow_right (by omega) (by omega)))
      le_rfl
  · intro k
    exact min_le_right _ _

/-- Evaluation witness for C7 at concrete attempt numbers. -/
theorem backoff_monotone_and_capped_witness :
    delayBeforeAttempt sampleParams 2 ≤ delayBeforeAttempt sampleParams 5 ∧
    delayBeforeAttempt sampleParams 9 ≤ sampleParams.maxDelay :=
  ⟨(backoff_monotone_and_capped sampleParams 2 5 (by decide)).1,
   (backoff_monotone_and_capped sampleParams 2 5 (by decide)).2 9⟩

/-- C8: `IsCircuitClosed()` (and `IsHealthy()`, which delegates to it)
returns true exactly when the breaker's current state is `Closed`, and
`ResetCircuit()` forces the state to `Closed` regardless of the prior
state, so `IsCircuitClosed()` returns true afterwards. -/
theorem circuit_closed_accessors (b : Breaker) :
    (IsCircuitClosed b = true ↔ b.state = CircuitState.closed) ∧
    circuitState (resetCircuit b) = CircuitState.closed ∧
    IsCircuitClosed (resetCircuit b) = true ∧
    IsHealthy b = IsCircuitClosed b := by
  refine ⟨?_, rfl, rfl, rfl⟩
  cases h : b.state <;> simp [IsCircuitClosed, h]

/-- C9: `CBFailureRateThreshold` has no effect on the constructed
pipeline: configurations differing only in that field give the same
parameters out of `New` and `NewSimple`, hence `Execute` behaves
identically on every wrapped operation. -/
theorem failure_rate_threshold_unused (cfg : Config) (x : Rat) :
    New (setCBFailureRateThreshold cfg x) = New cfg ∧
    NewSimple (setCBFailureRateThreshold cfg x) = NewSimple cfg ∧
    (∀ (T : Type) (fb : Option (Fallback T)) (r : ExecError → Bool)
       (op : Operation T) (b : Breaker),
       Execute (New (setCBFailureRateThreshold cfg x)) fb r op b =
         Execute (New cfg) fb r op b) := by
  exact ⟨rfl, rfl, fun T fb r op b => rfl⟩

/-- C10: `HTTPClient.Do` interprets status codes itself: a response with
status ≥ 500 has its body closed and becomes a nil response with a
non-nil error — and an error outcome of an attempt is recorded as a
failure on the circuit breaker — while a response below 500 with no
transport error is returned with a nil error. -/
theorem http_do_status_interpretation (resp : HTTPResponse) :
    (500 ≤ resp.statusCode →
      doAttempt (Except.ok resp) =
        (DoOutcome.respErr (serverErrorMsg resp.statusCode resp.body),
         true)) ∧
    (resp.statusCode < 500 →
      doAttempt (Except.ok resp) = (DoOutcome.respOk resp, false)) ∧
    (∀ (T : Type) (p : ExecParams) (now : Nat) (op : Operation T)
       (a : Nat) (b : Breaker) (c : Nat),
       (op a).out = OpOutcome.err c →
       (runAttempt p now op a b).2 =
         recordFailure p (now + (op a).dur) b) := by
  refine ⟨?_, ?_, ?_⟩
  · intro h
    simp [doAttempt, h]
  · intro h
    simp [doAttempt, Nat.not_le.2 h]
  · intro T p now op a b c h
    simp [runAttempt, h]

/-- Evaluation witness for C10: a 503 response is closed and turned into
an error, a 200 response passes through, and a failing attempt records a
failure on the breaker. -/
theorem http_do_status_interpretation_witness :
    doAttempt (Except.ok sampleResp503) =
      (DoOutcome.respErr (serverErrorMsg 503 sampleBody), true) ∧
    doAttempt (Except.ok sampleResp200) =
      (DoOutcome.respOk sampleResp200, false) ∧
    (runAttempt sampleParams 0 sampleFailOp 1 initBreaker).2 =
      recordFailure sampleParams (0 + (sampleFailOp 1).dur) initBreaker :=
  ⟨(http_do_status_interpretation sampleResp503).1 (by decide),
   (http_do_status_interpretation sampleResp200).2.1 (by decide),
   (http_do_status_interpretation sampleResp200).2.2 Nat sampleParams 0
     sampleFailOp 1 initBreaker 7 rfl⟩

end Resilience


